import Mathlib

/-!
Verification development for the SG-Mitochondrial-clustering pipeline.

The repository has three independent entry points that extract TrackMate
"Track" elements from XML and summarize them, plus two cross-file
aggregators over the per-file CSV tables:

* `src/tracking_analysis.py` — `parse_single_xml` (defensive extractor).
* `src/summary.py` — `process_xml` (extractor) and `aggregate_summaries`
  (aggregator over `*_summary.csv`).
* `src/tracking_dataset_final.py` — `main` (extractor, single file).
* `src/analysis_summary.py` — `summarize_csv_one` / `main` (aggregator
  over `*_analysis.csv`).

Strings are modelled as `List Char` (`Str`) so that every operation is
structurally recursive and evaluable by the kernel.  An escaped Python
exception is modelled as `Except.error ()`.  Python floats are modelled
as exact rationals; the numeric-literal grammar is restricted to plain
signed decimal literals, which covers the TrackMate attribute values.
-/

abbrev Str := List Char

deriving instance DecidableEq for Except

/-- Decimal digit value of a character, `none` for non-digits. -/
def digitVal (c : Char) : Option Nat :=
  if '0' ≤ c ∧ c ≤ '9' then some (c.toNat - '0'.toNat) else none

/-- Parse a nonempty all-digit string as a natural number. -/
def parseNatDigits (s : Str) : Option Nat :=
  if s.isEmpty then none
  else s.foldl (fun acc c => do
    let a ← acc
    let d ← digitVal c
    pure (a * 10 + d)) (some 0)

/-- Model of Python `int(s)` on a string: optional sign then digits;
`none` models a raised `ValueError`. -/
def parseIntChars (s : Str) : Option Int :=
  match s with
  | '-' :: rest => (parseNatDigits rest).map (fun n => -(n : Int))
  | '+' :: rest => (parseNatDigits rest).map (fun n => (n : Int))
  | _ => (parseNatDigits s).map (fun n => (n : Int))

/-- Unsigned part of Python `float(s)`: digits with an optional single
decimal point; at least one digit overall. -/
def parseRatUnsigned (s : Str) : Option ℚ :=
  match s.splitOn '.' with
  | [w] => (parseNatDigits w).map (fun n => (n : ℚ))
  | [w, f] =>
    if w.isEmpty && f.isEmpty then none
    else do
      let wn ← if w.isEmpty then some 0 else parseNatDigits w
      let fn ← if f.isEmpty then some 0 else parseNatDigits f
      pure ((wn : ℚ) + (fn : ℚ) / ((10 : ℚ) ^ f.length))
  | _ => none

/-- Model of Python `float(s)`: optional sign then an unsigned decimal
literal; `none` models a raised `ValueError`. -/
def parseRatChars (s : Str) : Option ℚ :=
  match s with
  | '-' :: rest => (parseRatUnsigned rest).map (fun q => -q)
  | '+' :: rest => parseRatUnsigned rest
  | _ => parseRatUnsigned s

/-- Python `int(tr.get(ATTR, d))`: a missing attribute yields the integer
default `d` (and `int(d) = d`); present attribute text is coerced, a
coercion failure raising `ValueError` (modelled as `Except.error ()`). -/
def pyInt (v : Option Str) (d : Int) : Except Unit Int :=
  match v with
  | none => Except.ok d
  | some s =>
    match parseIntChars s with
    | some n => Except.ok n
    | none => Except.error ()

/-- Python `float(tr.get(ATTR, d))` with a float default, as `pyInt`. -/
def pyRat (v : Option Str) (d : ℚ) : Except Unit ℚ :=
  match v with
  | none => Except.ok d
  | some s =>
    match parseRatChars s with
    | some q => Except.ok q
    | none => Except.error ()

/-- One XML `Track` element: the raw attribute text of the five
attributes the extractors read, `none` when the attribute is absent. -/
structure TrackElem where
  TRACK_ID : Option Str
  NUMBER_SPOTS : Option Str
  NUMBER_MERGES : Option Str
  TRACK_MEAN_SPEED : Option Str
  TRACK_MAX_SPEED : Option Str
deriving DecidableEq

/-- One per-track record, as built by all three extractors. -/
structure TrackRecord where
  track_id : Int
  n_spots : Int
  n_merges : Int
  has_merging : Bool
  mean_speed : ℚ
  max_speed : ℚ
deriving DecidableEq

/-- Record construction shared verbatim by `tracking_analysis.py`
(lines 54-62) and `summary.py` (lines 27-35): `n_merges` is coerced
first, then the record dict is built; `has_merging` is `n_merges > 0`. -/
def parseTrack (tr : TrackElem) : Except Unit TrackRecord := do
  let n_merges ← pyInt tr.NUMBER_MERGES 0
  let track_id ← pyInt tr.TRACK_ID (-1)
  let n_spots ← pyInt tr.NUMBER_SPOTS 0
  let mean_speed ← pyRat tr.TRACK_MEAN_SPEED 0
  let max_speed ← pyRat tr.TRACK_MAX_SPEED 0
  Except.ok { track_id, n_spots, n_merges,
              has_merging := decide (n_merges > 0), mean_speed, max_speed }

/-- Record construction in `tracking_dataset_final.py` lines 34-41: the
`NUMBER_MERGES` attribute is coerced twice, once for `n_merges` and once
for `has_merging`. -/
def parseTrackTDF (tr : TrackElem) : Except Unit TrackRecord := do
  let track_id ← pyInt tr.TRACK_ID (-1)
  let n_spots ← pyInt tr.NUMBER_SPOTS 0
  let n_merges ← pyInt tr.NUMBER_MERGES 0
  let merges2 ← pyInt tr.NUMBER_MERGES 0
  let mean_speed ← pyRat tr.TRACK_MEAN_SPEED 0
  let max_speed ← pyRat tr.TRACK_MAX_SPEED 0
  Except.ok { track_id, n_spots, n_merges,
              has_merging := decide (merges2 > 0), mean_speed, max_speed }

/-- Result of `ET.parse` + `root.findall(".//Track")`: either a parse
failure or the document's Track elements in document order. -/
abbrev XmlDoc := Except Unit (List TrackElem)

/-- Track loop of `tracking_analysis.parse_single_xml` (lines 51-64):
each track is wrapped in its own `try/except`, so a coercion failure
skips only the offending track. -/
def extractTracksTA (tracks : List TrackElem) : List TrackRecord :=
  tracks.filterMap (fun t => (parseTrack t).toOption)

/-- File-level aggregate statistics (the five summary scalars). -/
structure SummaryStats where
  total_tracks : Nat
  total_merges : Int
  avg_speed_all : ℚ
  avg_speed_merging : ℚ
  avg_speed_nonmerge : ℚ
deriving DecidableEq

/-- Arithmetic mean of a list of rationals (callers guard nonemptiness). -/
def meanQ (l : List ℚ) : ℚ := l.sum / (l.length : ℚ)

/-- `df[c]` on the DataFrame of a record list: `pd.DataFrame([])` has no
columns, so any column access on the empty record list raises `KeyError`
(modelled as `Except.error ()`); otherwise it is the extracted column. -/
def getCol (records : List TrackRecord) (f : TrackRecord → α) :
    Except Unit (List α) :=
  if records.isEmpty then Except.error ()
  else Except.ok (records.map f)

/-- Summary computation of `tracking_analysis.py` lines 72-76:
`total_merges` reads `df["n_merges"]` unconditionally, the merging /
non-merging means are guarded by `.any()` with a `0.0` sentinel. -/
def summarizeTA (records : List TrackRecord) : Except Unit SummaryStats := do
  let total_tracks := records.length
  let nmerges ← getCol records (·.n_merges)
  let speeds ← getCol records (·.mean_speed)
  let avg_all := meanQ speeds
  let hm ← getCol records (·.has_merging)
  let avg_merg :=
    if hm.any (fun b => b) then
      meanQ ((records.filter (·.has_merging)).map (·.mean_speed))
    else 0
  let avg_non :=
    if hm.any (fun b => !b) then
      meanQ ((records.filter (fun r => !r.has_merging)).map (·.mean_speed))
    else 0
  Except.ok { total_tracks, total_merges := nmerges.sum,
              avg_speed_all := avg_all, avg_speed_merging := avg_merg,
              avg_speed_nonmerge := avg_non }

/-- Summary computation of `summary.py` lines 39-43: identical to
`summarizeTA` except that `avg_speed_all` is guarded by
`total_tracks > 0` (a conditional expression, so `df["mean_speed"]` is
not touched when it is zero). -/
def summarizeSM (records : List TrackRecord) : Except Unit SummaryStats := do
  let total_tracks := records.length
  let nmerges ← getCol records (·.n_merges)
  let avg_all ←
    if total_tracks > 0 then do
      let speeds ← getCol records (·.mean_speed)
      Except.ok (meanQ speeds)
    else Except.ok 0
  let hm ← getCol records (·.has_merging)
  let avg_merg :=
    if hm.any (fun b => b) then
      meanQ ((records.filter (·.has_merging)).map (·.mean_speed))
    else 0
  let avg_non :=
    if hm.any (fun b => !b) then
      meanQ ((records.filter (fun r => !r.has_merging)).map (·.mean_speed))
    else 0
  Except.ok { total_tracks, total_merges := nmerges.sum,
              avg_speed_all := avg_all, avg_speed_merging := avg_merg,
              avg_speed_nonmerge := avg_non }

/-- Summary computation of `tracking_dataset_final.py` lines 45-49:
textually identical to `tracking_analysis.py` lines 72-76. -/
def summarizeTDF (records : List TrackRecord) : Except Unit SummaryStats :=
  summarizeTA records

/-- A per-file table: every track record paired with a copy of the
file's five summary scalars (the broadcast of lines 79-83 / 46-50). -/
abbrev FileTable := List (TrackRecord × SummaryStats)

/-- `tracking_analysis.parse_single_xml` (lines 42-85): document parse
failure is caught and yields an empty frame; an empty record list
returns the empty frame before any summary computation; otherwise the
summary is broadcast onto every record.  The `Except` result records
whether an exception would escape the Python function. -/
def parse_single_xml (doc : XmlDoc) : Except Unit FileTable :=
  match doc with
  | Except.error _ => Except.ok []
  | Except.ok tracks =>
    let records := extractTracksTA tracks
    if records.isEmpty then Except.ok []
    else (summarizeTA records).map (fun s => records.map (fun r => (r, s)))

/-- `summary.process_xml` (lines 21-54): no handler anywhere — a
document parse failure, any per-track coercion failure, and the
`KeyError` on a zero-track document all propagate to the caller. -/
def process_xml (doc : XmlDoc) : Except Unit FileTable := do
  let tracks ← doc
  let records ← tracks.mapM parseTrack
  let s ← summarizeSM records
  Except.ok (records.map (fun r => (r, s)))

/-- `tracking_dataset_final.main` (lines 28-59): no handler anywhere,
same failure propagation as `process_xml`. -/
def tdf_main (doc : XmlDoc) : Except Unit FileTable := do
  let tracks ← doc
  let records ← tracks.mapM parseTrackTDF
  let s ← summarizeTDF records
  Except.ok (records.map (fun r => (r, s)))

/-- Per-file loop of `tracking_analysis.main` (lines 131-149): each
file's table is computed and written; an empty table is counted as
skipped (`none`).  `parse_single_xml` is not wrapped in a handler, so an
escaped exception would abort the whole loop (the outer `Except`). -/
def taBatch (docs : List XmlDoc) : Except Unit (List (Option FileTable)) :=
  docs.mapM (fun d =>
    (parse_single_xml d).map (fun t => if t.isEmpty then none else some t))

/-- Per-file loop of `summary.main` (lines 102-109): `process_xml` is
wrapped in a per-file `try/except`, so a failed file yields `none` and
the loop always continues. -/
def summaryBatch (files : List (Str × XmlDoc)) :
    List (Str × Option FileTable) :=
  files.map (fun p => (p.1, (process_xml p.2).toOption))

/-- Column names of a per-file table, as serialized to CSV: the empty
frame has no columns, a nonempty one has the six record columns followed
by the five broadcast summary columns. -/
def elevenCols : List String :=
  ["track_id", "n_spots", "n_merges", "has_merging", "mean_speed",
   "max_speed", "total_tracks", "total_merges", "avg_speed_all",
   "avg_speed_merging", "avg_speed_nonmerge"]

/-- Columns of a `FileTable` as a DataFrame. -/
def tableColumns (t : FileTable) : List String :=
  if t.isEmpty then [] else elevenCols

/-! ### Cross-file aggregators

The two aggregators read back serialized per-file CSV tables, so their
inputs are modelled as generic DataFrames: a list of column names and
rows of opaque cells, where `Cell.na` is the pandas missing marker. -/

/-- One cell of a loaded CSV table: missing (`pd.NA` / `NaN`) or opaque
serialized content.  pandas `drop_duplicates` treats missing markers as
equal, matching `DecidableEq`. -/
inductive Cell where
  | na : Cell
  | str : Str → Cell
deriving DecidableEq

/-- A loaded CSV table. -/
structure DF where
  cols : List Str
  rows : List (List Cell)
deriving DecidableEq

/-- A well-formed frame has every row aligned with the column list. -/
def DF.WF (df : DF) : Prop := ∀ r ∈ df.rows, r.length = df.cols.length

/-- The five summary column names — `SELECT_COLS` of
`analysis_summary.py` lines 23-29, and the identical hardcoded label
list of `summary.py` lines 68-74 and 78-85. -/
def SELECT_COLS : List Str :=
  ["total_tracks".data, "total_merges".data, "avg_speed_all".data,
   "avg_speed_merging".data, "avg_speed_nonmerge".data]

/-- `df[col] = pd.NA` for a fresh column: appended after the existing
columns, every row extended with the missing marker. -/
def DF.addNACol (df : DF) (c : Str) : DF :=
  { cols := df.cols ++ [c], rows := df.rows.map (fun r => r ++ [Cell.na]) }

/-- The fill loop of `summarize_csv_one` (lines 49-51): each selected
column missing from the frame is appended as an all-NA column. -/
def fillSelect (df : DF) : DF :=
  SELECT_COLS.foldl (fun d c => if c ∈ d.cols then d else d.addNACol c) df

/-- Value of row `r` at column label `c` (first matching column).  The
`getD` default is unreachable after `fillSelect` on a well-formed frame. -/
def cellAt (cols : List Str) (r : List Cell) (c : Str) : Cell :=
  ((cols.zip r).lookup c).getD Cell.na

/-- `df[SELECT_COLS]` applied to one row: the selected cells in
`SELECT_COLS` order. -/
def projRow (cols : List Str) (r : List Cell) : List Cell :=
  SELECT_COLS.map (fun c => cellAt cols r c)

/-- Helper for `dedupFirst`: drop elements already seen. -/
def dedupSeen [DecidableEq α] (seen : List α) : List α → List α
  | [] => []
  | x :: xs =>
    if x ∈ seen then dedupSeen seen xs
    else x :: dedupSeen (x :: seen) xs

/-- pandas `drop_duplicates()`: keep the first occurrence of each
distinct row, preserving order. -/
def dedupFirst [DecidableEq α] (l : List α) : List α := dedupSeen [] l

/-- One row of a consolidated output table: the `filename` key plus the
five selected cells in `SELECT_COLS` order. -/
structure AggRecord where
  filename : Str
  vals : List Cell
deriving DecidableEq

/-- A consolidated output table: the emitted column order and one
`AggRecord` per row (serialized as `filename :: vals`). -/
structure OutTable where
  header : List Str
  rows : List AggRecord
deriving DecidableEq

/-- `analysis_summary.summarize_csv_one` (lines 40-64): a read failure
returns the falsy empty dict (`none`); otherwise missing selected
columns are NA-filled, the selected projection is deduplicated, and the
first distinct row (or an all-NA row when the table has no rows) is kept
together with the csv stem as `filename`. -/
def summarize_csv_one (stem : Str) (read : Except Unit DF) :
    Option AggRecord :=
  match read with
  | Except.error _ => none
  | Except.ok df0 =>
    let df := fillSelect df0
    let sub := dedupFirst (df.rows.map (fun r => projRow df.cols r))
    let vals :=
      match sub with
      | [] => SELECT_COLS.map (fun _ => Cell.na)
      | v :: _ => v
    some { filename := stem, vals := vals }

/-- Lexicographic string order on code points, as Python compares
`str` values (and as pandas sorts a string column). -/
def strLeB : Str → Str → Bool
  | [], _ => true
  | _ :: _, [] => false
  | a :: as, b :: bs => if a = b then strLeB as bs else a.toNat ≤ b.toNat

/-- Insert into a list sorted by `filename`. -/
def insertByFilename (a : AggRecord) : List AggRecord → List AggRecord
  | [] => [a]
  | b :: bs =>
    if strLeB a.filename b.filename then a :: b :: bs
    else b :: insertByFilename a bs

/-- `df_all.sort_values("filename")` (line 96): sort rows ascending by
the `filename` column. -/
def sortByFilename (l : List AggRecord) : List AggRecord :=
  l.foldr insertByFilename []

/-- Whether rows are in ascending `filename` order. -/
def sortedByFilename : List AggRecord → Bool
  | [] => true
  | [_] => true
  | a :: b :: rest =>
    strLeB a.filename b.filename && sortedByFilename (b :: rest)

/-- `analysis_summary.main` (lines 66-105): falsy records from
unreadable files are dropped; with no records at all nothing is written
(`none`); otherwise the output has the fixed header
`["filename"] + SELECT_COLS` and rows sorted ascending by filename.
(The add-missing-column loop of lines 93-95 is a no-op because every
record carries exactly these keys.) -/
def analysis_main (inputs : List (Str × Except Unit DF)) : Option OutTable :=
  let records := inputs.filterMap (fun p => summarize_csv_one p.1 p.2)
  if records.isEmpty then none
  else some { header := "filename".data :: SELECT_COLS,
              rows := sortByFilename records }

/-- Fuel-indexed body of `eraseOccs`; the fuel is always at least the
string length, so it never runs out. -/
def eraseOccsFuel (pat : Str) : Nat → Str → Str
  | 0, s => s
  | _ + 1, [] => []
  | fuel + 1, c :: rest =>
    if pat ≠ [] ∧ pat.isPrefixOf (c :: rest) then
      eraseOccsFuel pat fuel ((c :: rest).drop pat.length)
    else c :: eraseOccsFuel pat fuel rest

/-- Python `str.replace(pat, "")` for nonempty `pat`: delete every
occurrence of `pat`, scanning left to right. -/
def eraseOccs (pat s : Str) : Str := eraseOccsFuel pat s.length s

/-- `df.iloc[0]`: the first row, raising `IndexError` on an empty
frame. -/
def headRow (df : DF) : Except Unit (List Cell) :=
  match df.rows.head? with
  | some r => Except.ok r
  | none => Except.error ()

/-- Label indexing on the series `df.iloc[0]`: the cell under column
label `c`, raising `KeyError` when the label is absent. -/
def lookupCell (df : DF) (row : List Cell) (c : Str) : Except Unit Cell :=
  match (df.cols.zip row).lookup c with
  | some v => Except.ok v
  | none => Except.error ()

/-- One record of `aggregate_summaries` (lines 65-76): `df.iloc[0]`
raises `IndexError` on an empty frame; label-list indexing
`df.iloc[0][[...]]` raises `KeyError` when any selected label is absent;
`filename` is the base name with every `"_summary"` occurrence deleted. -/
def aggRecordOf (stem : Str) (df : DF) : Except Unit AggRecord := do
  let row0 ← headRow df
  let vals ← SELECT_COLS.mapM (lookupCell df row0)
  Except.ok { filename := eraseOccs "_summary".data stem, vals := vals }

/-- `summary.aggregate_summaries` (lines 56-87): with no input files it
prints and returns (`none`); otherwise one record per file in input
(glob) order — no sorting — under the fixed header
`['filename', <five summary columns>]`.  Any per-file failure escapes
the function (no handler). -/
def aggregate_summaries (inputs : List (Str × DF)) :
    Except Unit (Option OutTable) := do
  if inputs.isEmpty then
    Except.ok none
  else do
    let records ← inputs.mapM (fun p => aggRecordOf p.1 p.2)
    Except.ok (some { header := "filename".data :: SELECT_COLS,
                      rows := records })

/-! ### Helper lemmas -/

@[simp] lemma except_bind_ok {α β : Type} (a : α) (f : α → Except Unit β) :
    (Except.ok a >>= f : Except Unit β) = f a := rfl

@[simp] lemma except_bind_error {α β : Type} (f : α → Except Unit β) :
    (Except.error () >>= f : Except Unit β) = Except.error () := rfl

lemma getCol_ok {α : Type} (records : List TrackRecord) (f : TrackRecord → α)
    (h : records ≠ []) : getCol records f = Except.ok (records.map f) := by
  simp [getCol, h]

lemma summarizeTA_eq (records : List TrackRecord) (h : records ≠ []) :
    summarizeTA records = Except.ok {
      total_tracks := records.length,
      total_merges := (records.map (·.n_merges)).sum,
      avg_speed_all := meanQ (records.map (·.mean_speed)),
      avg_speed_merging :=
        if (records.map (·.has_merging)).any (fun b => b) then
          meanQ ((records.filter (·.has_merging)).map (·.mean_speed))
        else 0,
      avg_speed_nonmerge :=
        if (records.map (·.has_merging)).any (fun b => !b) then
          meanQ ((records.filter (fun r => !r.has_merging)).map (·.mean_speed))
        else 0 } := by
  simp [summarizeTA, getCol, h]

lemma summarizeSM_eq (records : List TrackRecord) (h : records ≠ []) :
    summarizeSM records = Except.ok {
      total_tracks := records.length,
      total_merges := (records.map (·.n_merges)).sum,
      avg_speed_all := meanQ (records.map (·.mean_speed)),
      avg_speed_merging :=
        if (records.map (·.has_merging)).any (fun b => b) then
          meanQ ((records.filter (·.has_merging)).map (·.mean_speed))
        else 0,
      avg_speed_nonmerge :=
        if (records.map (·.has_merging)).any (fun b => !b) then
          meanQ ((records.filter (fun r => !r.has_merging)).map (·.mean_speed))
        else 0 } := by
  have hl : 0 < records.length := List.length_pos.mpr h
  simp [summarizeSM, getCol, h, hl]

lemma summarizeTA_empty : summarizeTA [] = Except.error () := rfl

lemma summarizeSM_empty : summarizeSM [] = Except.error () := rfl

lemma summarizeTDF_empty : summarizeTDF [] = Except.error () := rfl

/-! ### Concrete fixtures for witnesses and counterexamples -/

/-- A Track element with every attribute absent: parses with all
defaults, in particular `has_merging = false`. -/
def trackNoAttrs : TrackElem := ⟨none, none, none, none, none⟩

/-- A Track element with two merges and no other attributes. -/
def trackTwoMerges : TrackElem := ⟨none, none, some "2".data, none, none⟩

/-- A Track element whose `NUMBER_MERGES` text is non-numeric: every
extractor's `int(...)` coercion raises on it. -/
def trackBadMerges : TrackElem := ⟨none, none, some "abc".data, none, none⟩

/-- The record `trackNoAttrs` parses to. -/
def recNoMerge : TrackRecord := ⟨-1, 0, 0, false, 0, 0⟩

/-- The record `trackTwoMerges` parses to. -/
def recTwoMerges : TrackRecord := ⟨-1, 0, 2, true, 0, 0⟩

/-! ### Claim C1 — zero-track documents -/

/-- Claim C1 counterexample: the claim says no summarizer entry point
fails on a zero-Track document, but `process_xml` and
`tracking_dataset_final.main` both raise (`df["n_merges"]` on the
zero-column empty frame is a `KeyError`). -/
theorem C1_counterexample :
    process_xml (Except.ok ([] : List TrackElem)) = Except.error () ∧
    tdf_main (Except.ok ([] : List TrackElem)) = Except.error () := by
  constructor <;> rfl

/-- Claim C1 (amended): on a document with zero Track elements,
`parse_single_xml` returns the empty table and `tracking_analysis.main`
counts the file as skipped; `process_xml` raises and `summary.main`'s
per-file handler records the file as failed (an error, not a skip); in
`tracking_dataset_final.main` the failure propagates uncaught. -/
theorem C1_zero_track_amended :
    parse_single_xml (Except.ok ([] : List TrackElem)) = Except.ok [] ∧
    taBatch [Except.ok []] = Except.ok [none] ∧
    process_xml (Except.ok ([] : List TrackElem)) = Except.error () ∧
    summaryBatch [("f".data, Except.ok [])] = [("f".data, none)] ∧
    tdf_main (Except.ok ([] : List TrackElem)) = Except.error () := by
  refine ⟨rfl, rfl, rfl, ?_, rfl⟩
  decide

/-! ### Claim C2 — empty-subset sentinel 0.0 -/

lemma any_map_false_of_filter_nil (records : List TrackRecord)
    (p : Bool → Bool)
    (h : records.filter (fun r => p r.has_merging) = []) :
    (records.map (·.has_merging)).any p = false := by
  rw [List.any_eq_false]
  intro b hb
  obtain ⟨r, hr, rfl⟩ := List.mem_map.mp hb
  have := List.filter_eq_nil_iff.mp h r hr
  simpa using this

/-- Claim C2: whenever any of the three summarizers produces a result
and the merging (resp. non-merging) subset of the records is empty, the
corresponding average is the exact sentinel 0; the `.any()`-guarded
conditional is the same in all three sources. -/
theorem C2_empty_subset_sentinel (records : List TrackRecord) :
    ((records.filter (·.has_merging)) = [] →
      ∀ s : SummaryStats,
        summarizeTA records = Except.ok s ∨
          summarizeSM records = Except.ok s ∨
          summarizeTDF records = Except.ok s →
        s.avg_speed_merging = 0) ∧
    ((records.filter (fun r => !r.has_merging)) = [] →
      ∀ s : SummaryStats,
        summarizeTA records = Except.ok s ∨
          summarizeSM records = Except.ok s ∨
          summarizeTDF records = Except.ok s →
        s.avg_speed_nonmerge = 0) := by
  by_cases hrec : records = []
  · subst hrec
    refine ⟨?_, ?_⟩ <;>
      · intro _ s hs
        rcases hs with h | h | h <;> simp [summarizeTA_empty, summarizeSM_empty,
          summarizeTDF_empty] at h
  · have hTA := summarizeTA_eq records hrec
    have hSM := summarizeSM_eq records hrec
    constructor
    · intro hfil s hs
      have hany : (records.map (·.has_merging)).any (fun b => b) = false :=
        any_map_false_of_filter_nil records (fun b => b) (by simpa using hfil)
      rcases hs with h | h | h <;>
        [rw [hTA] at h; rw [hSM] at h; rw [show summarizeTDF records = _ from hTA] at h] <;>
        · cases h
          simp [hany]
    · intro hfil s hs
      have hany : (records.map (·.has_merging)).any (fun b => !b) = false :=
        any_map_false_of_filter_nil records (fun b => !b) (by simpa using hfil)
      rcases hs with h | h | h <;>
        [rw [hTA] at h; rw [hSM] at h; rw [show summarizeTDF records = _ from hTA] at h] <;>
        · cases h
          simp [hany]

/-- Witness for C2 at a concrete one-record input with no merging
track: the hypothesis holds by evaluation and the merging average is
the sentinel. -/
theorem C2_empty_subset_sentinel_witness :
    ([recNoMerge].filter (·.has_merging) = []) ∧
    (summarizeTA [recNoMerge]).map (·.avg_speed_merging) = Except.ok 0 := by
  have hok := summarizeTA_eq [recNoMerge] (by simp)
  have h0 := (C2_empty_subset_sentinel [recNoMerge]).1 (by decide) _ (Or.inl hok)
  exact ⟨by decide, by rw [hok]; simpa [Except.map] using h0⟩

/-! ### Claim C9 — has_merging is derived from n_merges -/

/-- Claim C9: every record produced by any extractor satisfies
`has_merging = (n_merges > 0)`; in `tracking_dataset_final` the field is
recomputed from the same attribute, with the same result.
(`parseTrack` is the record construction of both `tracking_analysis.py`
and `summary.py`.) -/
theorem C9_has_merging_iff (tr : TrackElem) (rec : TrackRecord) :
    (parseTrack tr = Except.ok rec →
      (rec.has_merging = true ↔ rec.n_merges > 0)) ∧
    (parseTrackTDF tr = Except.ok rec →
      (rec.has_merging = true ↔ rec.n_merges > 0)) := by
  constructor
  · intro h
    unfold parseTrack at h
    cases hm : pyInt tr.NUMBER_MERGES 0 with
    | error e => rw [hm] at h; cases e; simp at h
    | ok nm =>
      rw [hm] at h; rw [except_bind_ok] at h
      cases hid : pyInt tr.TRACK_ID (-1) with
      | error e => rw [hid] at h; cases e; simp at h
      | ok tid =>
        rw [hid] at h; rw [except_bind_ok] at h
        cases hsp : pyInt tr.NUMBER_SPOTS 0 with
        | error e => rw [hsp] at h; cases e; simp at h
        | ok nsp =>
          rw [hsp] at h; rw [except_bind_ok] at h
          cases hms : pyRat tr.TRACK_MEAN_SPEED 0 with
          | error e => rw [hms] at h; cases e; simp at h
          | ok ms =>
            rw [hms] at h; rw [except_bind_ok] at h
            cases hxs : pyRat tr.TRACK_MAX_SPEED 0 with
            | error e => rw [hxs] at h; cases e; simp at h
            | ok xs =>
              rw [hxs] at h; rw [except_bind_ok] at h
              cases h
              simp
  · intro h
    unfold parseTrackTDF at h
    cases hid : pyInt tr.TRACK_ID (-1) with
    | error e => rw [hid] at h; cases e; simp at h
    | ok tid =>
      rw [hid] at h; rw [except_bind_ok] at h
      cases hsp : pyInt tr.NUMBER_SPOTS 0 with
      | error e => rw [hsp] at h; cases e; simp at h
      | ok nsp =>
        rw [hsp] at h; rw [except_bind_ok] at h
        cases hm : pyInt tr.NUMBER_MERGES 0 with
        | error e => rw [hm] at h; cases e; simp at h
        | ok nm =>
          rw [hm] at h; rw [except_bind_ok, except_bind_ok] at h
          cases hms : pyRat tr.TRACK_MEAN_SPEED 0 with
          | error e => rw [hms] at h; cases e; simp at h
          | ok ms =>
            rw [hms] at h; rw [except_bind_ok] at h
            cases hxs : pyRat tr.TRACK_MAX_SPEED 0 with
            | error e => rw [hxs] at h; cases e; simp at h
            | ok xs =>
              rw [hxs] at h; rw [except_bind_ok] at h
              cases h
              simp

/-- Witness for C9 at a concrete merging track. -/
theorem C9_has_merging_iff_witness :
    parseTrack trackTwoMerges = Except.ok recTwoMerges ∧
    (recTwoMerges.has_merging = true ↔ recTwoMerges.n_merges > 0) := by
  have h : parseTrack trackTwoMerges = Except.ok recTwoMerges := by decide
  exact ⟨h, (C9_has_merging_iff trackTwoMerges recTwoMerges).1 h⟩

/-! ### Claim C10 — parse_single_xml is total -/

/-- Claim C10: `parse_single_xml` never lets an exception escape —
document parse failure and any per-track coercion failure are caught,
the zero-record case returns before any summary column access — and
every nonempty result table carries exactly the eleven declared
columns. -/
theorem C10_parse_single_xml_total (doc : XmlDoc) :
    ∃ t : FileTable, parse_single_xml doc = Except.ok t ∧
      (t.isEmpty = true ∨
        (tableColumns t = elevenCols ∧ elevenCols.length = 11)) := by
  cases doc with
  | error e => cases e; exact ⟨[], rfl, Or.inl rfl⟩
  | ok tracks =>
    by_cases h : (extractTracksTA tracks).isEmpty
    · exact ⟨[], by simp [parse_single_xml, h], Or.inl rfl⟩
    · have hne : extractTracksTA tracks ≠ [] := by
        simpa [List.isEmpty_iff] using h
      obtain ⟨s, hs⟩ : ∃ s, summarizeTA (extractTracksTA tracks) = Except.ok s :=
        ⟨_, summarizeTA_eq _ hne⟩
      refine ⟨(extractTracksTA tracks).map (fun r => (r, s)), ?_, Or.inr ⟨?_, rfl⟩⟩
      · simp [parse_single_xml, h, hs, Except.map]
      · simp [tableColumns, List.isEmpty_iff, hne]

/-! ### Claim C5 — per-track error isolation -/

lemma process_xml_ok_doc (tracks : List TrackElem) :
    process_xml (Except.ok tracks) =
      tracks.mapM parseTrack >>= fun records =>
        summarizeSM records >>= fun s =>
          Except.ok (records.map (fun r => (r, s))) := rfl

lemma mapM_error_of_mem {α β : Type} (f : α → Except Unit β) (l : List α)
    (x : α) (hx : x ∈ l) (hf : f x = Except.error ()) :
    l.mapM f = Except.error () := by
  induction l with
  | nil => cases hx
  | cons a as ih =>
    rw [List.mapM_cons]
    rcases List.mem_cons.mp hx with rfl | hmem
    · rw [hf]; rfl
    · cases hfa : f a with
      | error e => cases e; rfl
      | ok b => rw [except_bind_ok, ih hmem]; rfl

/-- Claim C5 counterexample: on a document holding one coercion-failing
track followed by one fully valid track, both `process_xml` and
`tracking_dataset_final.main` raise instead of producing the valid
track's record (the valid track alone parses fine, third conjunct). -/
theorem C5_counterexample :
    process_xml (Except.ok [trackBadMerges, trackNoAttrs]) = Except.error () ∧
    tdf_main (Except.ok [trackBadMerges, trackNoAttrs]) = Except.error () ∧
    parseTrack trackNoAttrs = Except.ok recNoMerge := by
  refine ⟨?_, ?_, ?_⟩ <;> decide

/-- Claim C5 (amended): a per-track coercion failure skips only the
offending track in `parse_single_xml`; in `process_xml` and
`tracking_dataset_final.main` it aborts extraction of the whole file —
`summary.main`'s per-file handler then records the file as failed
(`none`) and continues. -/
theorem C5_isolation_amended (pre post : List TrackElem) (bad : TrackElem)
    (hbad : parseTrack bad = Except.error ())
    (hbadTDF : parseTrackTDF bad = Except.error ()) :
    extractTracksTA (pre ++ bad :: post) =
      extractTracksTA pre ++ extractTracksTA post ∧
    (pre ++ bad :: post).mapM parseTrack = Except.error () ∧
    (pre ++ bad :: post).mapM parseTrackTDF = Except.error () ∧
    (∀ n : Str,
      summaryBatch [(n, Except.ok (pre ++ bad :: post))] = [(n, none)]) := by
  have hmem : bad ∈ pre ++ bad :: post := by simp
  have hSM := mapM_error_of_mem parseTrack _ bad hmem hbad
  refine ⟨?_, hSM, mapM_error_of_mem parseTrackTDF _ bad hmem hbadTDF, ?_⟩
  · simp [extractTracksTA, List.filterMap_append, List.filterMap_cons, hbad,
      Except.toOption]
  · intro n
    have hpx : process_xml (Except.ok (pre ++ bad :: post)) = Except.error () := by
      rw [process_xml_ok_doc, hSM]
      rfl
    simp [summaryBatch, hpx, Except.toOption]

/-- Witness for C5 at concrete tracks: the bad track fails coercion in
both record constructions, and `parse_single_xml`'s track loop drops
exactly it. -/
theorem C5_isolation_amended_witness :
    parseTrack trackBadMerges = Except.error () ∧
    extractTracksTA [trackNoAttrs, trackBadMerges, trackNoAttrs] =
      extractTracksTA [trackNoAttrs] ++ extractTracksTA [trackNoAttrs] := by
  have h1 : parseTrack trackBadMerges = Except.error () := by decide
  have h2 : parseTrackTDF trackBadMerges = Except.error () := by decide
  exact ⟨h1,
    (C5_isolation_amended [trackNoAttrs] [trackNoAttrs] trackBadMerges h1 h2).1⟩

/-! ### Claim C6 — document-level parse failure -/

/-- Claim C6 counterexample: a document that cannot be parsed makes
`tracking_dataset_final.main` raise — for that entry point the failure
is fatal, not a warning with an empty record sequence. -/
theorem C6_counterexample : tdf_main (Except.error ()) = Except.error () := rfl

/-- Claim C6 (amended): `parse_single_xml` turns a document parse
failure into a warning plus empty table; in `summary.py` the failure
escapes `process_xml` but `main`'s per-file handler keeps the batch
going (the surrounding files are processed exactly as without the bad
file); in `tracking_dataset_final.main` the failure propagates. -/
theorem C6_parse_failure_amended (files1 files2 : List (Str × XmlDoc)) (n : Str) :
    parse_single_xml (Except.error ()) = Except.ok [] ∧
    process_xml (Except.error ()) = Except.error () ∧
    summaryBatch (files1 ++ (n, Except.error ()) :: files2) =
      summaryBatch files1 ++ (n, none) :: summaryBatch files2 ∧
    tdf_main (Except.error ()) = Except.error () := by
  refine ⟨rfl, rfl, ?_, rfl⟩
  simp [summaryBatch, process_xml, Except.toOption]

/-! ### Sorting helper lemmas -/

lemma strLeB_total (a b : Str) : strLeB a b = true ∨ strLeB b a = true := by
  induction a generalizing b with
  | nil => left; rfl
  | cons x xs ih =>
    cases b with
    | nil => right; rfl
    | cons y ys =>
      by_cases h : x = y
      · subst h
        simpa [strLeB] using ih ys
      · simp [strLeB, h, Ne.symm h]
        omega

lemma insertByFilename_cons (a b : AggRecord) (bs : List AggRecord) :
    insertByFilename a (b :: bs) =
      if strLeB a.filename b.filename then a :: b :: bs
      else b :: insertByFilename a bs := rfl

lemma sortedByFilename_cons2 (a b : AggRecord) (l : List AggRecord) :
    sortedByFilename (a :: b :: l) =
      (strLeB a.filename b.filename && sortedByFilename (b :: l)) := rfl

lemma insertByFilename_sorted (a : AggRecord) (l : List AggRecord)
    (h : sortedByFilename l = true) :
    sortedByFilename (insertByFilename a l) = true := by
  induction l with
  | nil => rfl
  | cons b bs ih =>
    rw [insertByFilename_cons]
    by_cases hab : strLeB a.filename b.filename
    · rw [if_pos hab, sortedByFilename_cons2, hab, h]
      rfl
    · rw [if_neg hab]
      have hba : strLeB b.filename a.filename = true :=
        (strLeB_total a.filename b.filename).resolve_left (by simpa using hab)
      cases bs with
      | nil =>
        rw [show insertByFilename a [] = [a] from rfl, sortedByFilename_cons2,
          hba]
        rfl
      | cons c cs =>
        rw [sortedByFilename_cons2, Bool.and_eq_true] at h
        have ih2 := ih h.2
        rw [insertByFilename_cons] at ih2 ⊢
        by_cases hac : strLeB a.filename c.filename
        · rw [if_pos hac] at ih2 ⊢
          rw [sortedByFilename_cons2, hba, ih2]
          rfl
        · rw [if_neg hac] at ih2 ⊢
          rw [sortedByFilename_cons2, h.1, ih2]
          rfl

lemma sortByFilename_sorted (l : List AggRecord) :
    sortedByFilename (sortByFilename l) = true := by
  induction l with
  | nil => rfl
  | cons a as ih => exact insertByFilename_sorted a _ ih

lemma insertByFilename_length (a : AggRecord) (l : List AggRecord) :
    (insertByFilename a l).length = l.length + 1 := by
  induction l with
  | nil => rfl
  | cons b bs ih =>
    by_cases h : strLeB a.filename b.filename <;>
      simp [insertByFilename, h, ih]

lemma sortByFilename_length (l : List AggRecord) :
    (sortByFilename l).length = l.length := by
  induction l with
  | nil => rfl
  | cons a as ih =>
    show (insertByFilename a (sortByFilename as)).length = as.length + 1
    rw [insertByFilename_length, ih]

/-! ### Aggregator record helper lemmas -/

lemma aggRecordOf_filename (stem : Str) (df : DF) (rec : AggRecord)
    (h : aggRecordOf stem df = Except.ok rec) :
    rec.filename = eraseOccs "_summary".data stem := by
  unfold aggRecordOf at h
  cases hrow : headRow df with
  | error e => rw [hrow] at h; cases e; simp at h
  | ok r =>
    rw [hrow, except_bind_ok] at h
    cases hv : SELECT_COLS.mapM (lookupCell df r) with
    | error e => rw [hv] at h; cases e; simp at h
    | ok vals =>
      rw [hv, except_bind_ok] at h
      cases h
      rfl

lemma mapM_aggRecordOf_filenames (inputs : List (Str × DF))
    (records : List AggRecord)
    (h : inputs.mapM (fun p => aggRecordOf p.1 p.2) = Except.ok records) :
    records.map (·.filename) =
      inputs.map (fun p => eraseOccs "_summary".data p.1) := by
  induction inputs generalizing records with
  | nil =>
    simp only [List.mapM_nil] at h
    cases h
    rfl
  | cons p ps ih =>
    rw [List.mapM_cons] at h
    cases hr : aggRecordOf p.1 p.2 with
    | error e => rw [hr] at h; cases e; simp at h
    | ok rec =>
      rw [hr, except_bind_ok] at h
      cases hrs : ps.mapM (fun p => aggRecordOf p.1 p.2) with
      | error e => rw [hrs] at h; cases e; simp at h
      | ok recs =>
        rw [hrs, except_bind_ok] at h
        cases h
        simp [aggRecordOf_filename p.1 p.2 rec hr, ih recs hrs]

/-! ### Claim C3 — output ordering -/

/-- Five opaque cells used by concrete aggregator fixtures. -/
def fiveCells : List Cell :=
  [Cell.str "1".data, Cell.str "2".data, Cell.str "3".data,
   Cell.str "4".data, Cell.str "5".data]

/-- A per-file table carrying exactly the five summary columns and one
row. -/
def dfFive : DF := { cols := SELECT_COLS, rows := [fiveCells] }

/-- Claim C3 counterexample: `aggregate_summaries` emits rows in input
(glob) order — fed the files `b_summary`, `a_summary` in that order it
produces rows `b`, `a`, which are not sorted ascending by filename. -/
theorem C3_counterexample :
    (aggregate_summaries
        [("b_summary".data, dfFive), ("a_summary".data, dfFive)]).map
      (fun o => o.map (fun t =>
        (t.rows.map (fun r => r.filename), sortedByFilename t.rows))) =
    Except.ok (some (["b".data, "a".data], false)) := by
  decide

/-- Claim C3 (amended): both aggregators emit the fixed column order
`[filename, <the five selected columns>]`; `analysis_summary.main`
sorts rows ascending by filename, while `aggregate_summaries` keeps the
rows in input enumeration order (one per input, unsorted). -/
theorem C3_ordering_amended :
    (∀ inputs out, analysis_main inputs = some out →
      out.header = "filename".data :: SELECT_COLS ∧
        sortedByFilename out.rows = true) ∧
    (∀ inputs out, aggregate_summaries inputs = Except.ok (some out) →
      out.header = "filename".data :: SELECT_COLS ∧
        out.rows.map (fun r => r.filename) =
          inputs.map (fun p => eraseOccs "_summary".data p.1)) := by
  constructor
  · intro inputs out h
    unfold analysis_main at h
    by_cases hrec : (inputs.filterMap (fun p => summarize_csv_one p.1 p.2)).isEmpty
    · simp [hrec] at h
    · simp only [hrec, Bool.false_eq_true, if_false, Option.some.injEq] at h
      cases h
      exact ⟨rfl, sortByFilename_sorted _⟩
  · intro inputs out h
    unfold aggregate_summaries at h
    by_cases hin : inputs.isEmpty
    · simp [hin] at h
    · simp only [hin, Bool.false_eq_true, if_false] at h
      cases hr : inputs.mapM (fun p => aggRecordOf p.1 p.2) with
      | error e => rw [hr] at h; cases e; simp at h
      | ok records =>
        rw [hr, except_bind_ok] at h
        cases h
        exact ⟨rfl, mapM_aggRecordOf_filenames inputs records hr⟩

/-- The output `analysis_summary.main` produces on the single input
`a_analysis` (used by the C3 witness). -/
def outSingleA : OutTable :=
  { header := "filename".data :: SELECT_COLS,
    rows := [⟨"a_analysis".data, fiveCells⟩] }

/-- Witness for the amended C3 at a concrete input list. -/
theorem C3_ordering_amended_witness :
    analysis_main [("a_analysis".data, Except.ok dfFive)] = some outSingleA ∧
    outSingleA.header = "filename".data :: SELECT_COLS ∧
    sortedByFilename outSingleA.rows = true := by
  have h : analysis_main [("a_analysis".data, Except.ok dfFive)] =
      some outSingleA := by decide
  exact ⟨h, (C3_ordering_amended.1 _ _ h).1, (C3_ordering_amended.1 _ _ h).2⟩

/-! ### Lookup and NA-fill helper lemmas -/

lemma lookup_zip_none (cols : List Str) (r : List Cell) (c : Str)
    (hc : c ∉ cols) : (cols.zip r).lookup c = none := by
  induction cols generalizing r with
  | nil => rfl
  | cons d ds ih =>
    cases r with
    | nil => rfl
    | cons e es =>
      have hcd : c ≠ d := fun hh => hc (hh ▸ List.mem_cons_self d ds)
      have hmem : c ∉ ds := fun hh => hc (List.mem_cons_of_mem d hh)
      have hbeq : (c == d) = false := by simp [hcd]
      show List.lookup c ((d, e) :: ds.zip es) = none
      simp only [List.lookup, hbeq]
      exact ih es hmem

lemma lookup_zip_self_map (l : List Str) (g : Str → Cell) (c : Str)
    (hc : c ∈ l) : (l.zip (l.map g)).lookup c = some (g c) := by
  induction l with
  | nil => cases hc
  | cons d ds ih =>
    by_cases hcd : c = d
    · subst hcd
      simp [List.lookup]
    · rcases List.mem_cons.mp hc with rfl | hmem
      · exact absurd rfl hcd
      · have hbeq : (c == d) = false := by simp [hcd]
        show List.lookup c ((d, g d) :: ds.zip (ds.map g)) = some (g c)
        simp only [List.lookup, hbeq]
        exact ih hmem

lemma lookup_append_cell (l1 l2 : List (Str × Cell)) (c : Str) :
    (l1 ++ l2).lookup c =
      match l1.lookup c with
      | some v => some v
      | none => l2.lookup c := by
  induction l1 with
  | nil => rfl
  | cons kv l ih =>
    obtain ⟨k, v⟩ := kv
    by_cases hck : c = k
    · subst hck
      simp [List.lookup]
    · have hbeq : (c == k) = false := by simp [hck]
      show List.lookup c ((k, v) :: (l ++ l2)) = _
      simp only [List.lookup, hbeq]
      exact ih

lemma addNACol_WF (df : DF) (c : Str) (h : df.WF) : (df.addNACol c).WF := by
  intro r hr
  obtain ⟨r0, hr0, rfl⟩ := List.mem_map.mp hr
  simp [DF.addNACol, h r0 hr0]

lemma cellAt_addNACol_self (df : DF) (c : Str) (hWF : df.WF)
    (hc : c ∉ df.cols) :
    ∀ r ∈ (df.addNACol c).rows, cellAt (df.addNACol c).cols r c = Cell.na := by
  intro r hr
  obtain ⟨r0, hr0, rfl⟩ := List.mem_map.mp hr
  unfold cellAt DF.addNACol
  simp only
  rw [List.zip_append (by rw [hWF r0 hr0]), lookup_append_cell,
    lookup_zip_none df.cols r0 c hc]
  simp [List.lookup]

lemma cellAt_addNACol_other (df : DF) (c2 c : Str) (r0 : List Cell)
    (hlen : r0.length = df.cols.length) (hne : c ≠ c2) :
    cellAt (df.addNACol c2).cols (r0 ++ [Cell.na]) c = cellAt df.cols r0 c := by
  unfold cellAt DF.addNACol
  simp only
  rw [List.zip_append (by rw [hlen]), lookup_append_cell]
  cases h : (df.cols.zip r0).lookup c with
  | none =>
    have hbeq : (c == c2) = false := by simp [hne]
    simp [List.lookup, hbeq]
  | some v => simp

lemma fillGo_WF (cs : List Str) :
    ∀ df : DF, df.WF →
      (cs.foldl (fun d c => if c ∈ d.cols then d else d.addNACol c) df).WF := by
  induction cs with
  | nil => intro df h; exact h
  | cons c0 cs' ih =>
    intro df h
    rw [List.foldl_cons]
    by_cases h0 : c0 ∈ df.cols
    · rw [if_pos h0]; exact ih df h
    · rw [if_neg h0]; exact ih _ (addNACol_WF df c0 h)

lemma fill_na_preserved (cs : List Str) :
    ∀ df : DF, df.WF → ∀ c : Str,
      (∀ r ∈ df.rows, cellAt df.cols r c = Cell.na) →
      ∀ r ∈ (cs.foldl (fun d c => if c ∈ d.cols then d else d.addNACol c) df).rows,
        cellAt (cs.foldl (fun d c => if c ∈ d.cols then d else d.addNACol c) df).cols
          r c = Cell.na := by
  induction cs with
  | nil => intro df _ c hna; exact hna
  | cons c0 cs' ih =>
    intro df hWF c hna
    rw [List.foldl_cons]
    by_cases h0 : c0 ∈ df.cols
    · rw [if_pos h0]; exact ih df hWF c hna
    · rw [if_neg h0]
      apply ih _ (addNACol_WF df c0 hWF) c
      intro r hr
      obtain ⟨r0, hr0, rfl⟩ := List.mem_map.mp hr
      by_cases hcc : c = c0
      · subst hcc
        exact cellAt_addNACol_self df c hWF h0 _
          (List.mem_map_of_mem _ hr0)
      · rw [cellAt_addNACol_other df c0 c r0 (hWF r0 hr0) hcc]
        exact hna r0 hr0

lemma fill_na (cs : List Str) :
    ∀ df : DF, df.WF → ∀ c : Str, c ∈ cs → c ∉ df.cols →
      ∀ r ∈ (cs.foldl (fun d c => if c ∈ d.cols then d else d.addNACol c) df).rows,
        cellAt (cs.foldl (fun d c => if c ∈ d.cols then d else d.addNACol c) df).cols
          r c = Cell.na := by
  induction cs with
  | nil => intro df _ c hc; cases hc
  | cons c0 cs' ih =>
    intro df hWF c hc hnotin
    rw [List.foldl_cons]
    by_cases h0 : c0 ∈ df.cols
    · rw [if_pos h0]
      rcases List.mem_cons.mp hc with rfl | hmem
      · exact absurd h0 hnotin
      · exact ih df hWF c hmem hnotin
    · rw [if_neg h0]
      by_cases hcc : c = c0
      · subst hcc
        exact fill_na_preserved cs' _ (addNACol_WF df c hWF) c
          (cellAt_addNACol_self df c hWF h0)
      · rcases List.mem_cons.mp hc with rfl | hmem
        · exact absurd rfl hcc
        · apply ih _ (addNACol_WF df c0 hWF) c hmem
          simp [DF.addNACol, hnotin, hcc]

lemma dedupFirst_cons {α : Type} [DecidableEq α] (x : α) (xs : List α) :
    dedupFirst (x :: xs) = x :: dedupSeen [x] xs := by
  simp [dedupFirst, dedupSeen]

lemma summarize_csv_one_ok (stem : Str) (df0 : DF) :
    summarize_csv_one stem (Except.ok df0) =
      some { filename := stem,
             vals := match dedupFirst ((fillSelect df0).rows.map
                 (projRow (fillSelect df0).cols)) with
               | [] => SELECT_COLS.map (fun _ => Cell.na)
               | v :: _ => v } := rfl

/-! ### Claim C4 — missing selected columns -/

/-- A per-file table missing four of the five selected columns. -/
def dfMissing : DF :=
  { cols := ["total_tracks".data], rows := [[Cell.str "1".data]] }

/-- Claim C4 counterexample: `aggregate_summaries` raises (a `KeyError`
from `df.iloc[0][[...]]`) on a table lacking a selected column, instead
of filling a null marker. -/
theorem C4_counterexample :
    aggregate_summaries [("x_summary".data, dfMissing)] = Except.error () := by
  decide

/-- Claim C4 (amended): `summarize_csv_one` fills every absent selected
column with the NA marker and still emits the file's row; in
`aggregate_summaries` an absent selected column makes the per-file
label indexing raise, aborting the aggregation run. -/
theorem C4_missing_column_amended (stem : Str) (df : DF) (hWF : df.WF) :
    (∃ rec, summarize_csv_one stem (Except.ok df) = some rec ∧
      ∀ c, c ∈ SELECT_COLS → c ∉ df.cols →
        (SELECT_COLS.zip rec.vals).lookup c = some Cell.na) ∧
    (df.rows ≠ [] →
      ∀ c, c ∈ SELECT_COLS → c ∉ df.cols →
        aggregate_summaries [(stem, df)] = Except.error ()) := by
  constructor
  · rw [summarize_csv_one_ok]
    refine ⟨_, rfl, ?_⟩
    intro c hcS hcD
    cases hrows : (fillSelect df).rows with
    | nil =>
      simp only [hrows, List.map_nil]
      show (SELECT_COLS.zip (SELECT_COLS.map (fun _ => Cell.na))).lookup c =
        some Cell.na
      exact lookup_zip_self_map SELECT_COLS (fun _ => Cell.na) c hcS
    | cons r0 rest =>
      simp only [hrows, List.map_cons, dedupFirst_cons]
      show (SELECT_COLS.zip (projRow (fillSelect df).cols r0)).lookup c =
        some Cell.na
      unfold projRow
      rw [lookup_zip_self_map SELECT_COLS _ c hcS]
      exact congrArg some
        (fill_na SELECT_COLS df hWF c hcS hcD r0
          (hrows ▸ List.mem_cons_self r0 rest))
  · intro hrows c hcS hcD
    have h1 : aggRecordOf stem df = Except.error () := by
      unfold aggRecordOf
      cases hr : df.rows with
      | nil => exact absurd hr hrows
      | cons r0 rest =>
        have hhead : headRow df = Except.ok r0 := by simp [headRow, hr]
        rw [hhead, except_bind_ok]
        have hcell : lookupCell df r0 c = Except.error () := by
          unfold lookupCell
          rw [lookup_zip_none df.cols r0 c hcD]
        rw [mapM_error_of_mem (lookupCell df r0) SELECT_COLS c hcS hcell]
        rfl
    have h2 : ([(stem, df)].mapM (fun p => aggRecordOf p.1 p.2)) =
        Except.error () :=
      mapM_error_of_mem _ _ (stem, df) (List.mem_singleton.mpr rfl) h1
    show (if ([(stem, df)] : List (Str × DF)).isEmpty then _ else _) = _
    rw [if_neg (by simp)]
    rw [h2]
    rfl

/-- Witness for the amended C4: on a concrete well-formed table missing
`total_merges`, the emitted row holds the NA marker under that column. -/
theorem C4_missing_column_amended_witness :
    dfMissing.WF ∧
    ∃ rec, summarize_csv_one "x_analysis".data (Except.ok dfMissing) = some rec ∧
      (SELECT_COLS.zip rec.vals).lookup "total_merges".data = some Cell.na := by
  have hWF : dfMissing.WF := by
    intro r hr
    simp only [dfMissing, List.mem_singleton] at hr
    subst hr
    rfl
  refine ⟨hWF, ?_⟩
  obtain ⟨rec, h1, h2⟩ :=
    (C4_missing_column_amended "x_analysis".data dfMissing hWF).1
  exact ⟨rec, h1, h2 "total_merges".data (by decide) (by decide)⟩

/-! ### Claim C7 — filename derivation -/

/-- Claim C7 counterexample: `summarize_csv_one` keeps the full csv stem
as `filename`: for the table `sample_analysis.csv` the consolidated row
says `sample_analysis`, not `sample` — the `_analysis` suffix is not
stripped. -/
theorem C7_counterexample :
    (summarize_csv_one "sample_analysis".data (Except.ok dfFive)).map
      (fun r => r.filename) = some "sample_analysis".data ∧
    "sample_analysis".data ≠ "sample".data := by
  exact ⟨by decide, by decide⟩

/-- Claim C7 (amended): `aggregate_summaries` deletes every occurrence
of `_summary` from the base name; `summarize_csv_one` uses the csv stem
unchanged, retaining the `_analysis` suffix; in both aggregators
`filename` is not one of the selected summary columns. -/
theorem C7_filename_amended :
    (∀ stem read rec, summarize_csv_one stem read = some rec →
      rec.filename = stem) ∧
    (∀ stem df rec, aggRecordOf stem df = Except.ok rec →
      rec.filename = eraseOccs "_summary".data stem) ∧
    "filename".data ∉ SELECT_COLS := by
  refine ⟨?_, fun stem df rec h => aggRecordOf_filename stem df rec h, by decide⟩
  intro stem read rec h
  cases read with
  | error e => simp [summarize_csv_one] at h
  | ok df =>
    rw [summarize_csv_one_ok] at h
    cases h
    rfl

/-- The aggregate record `summarize_csv_one` builds from
`sample_analysis.csv` (used by the C7 witness). -/
def recSampleA : AggRecord := ⟨"sample_analysis".data, fiveCells⟩

/-- Witness for the amended C7 at a concrete table. -/
theorem C7_filename_amended_witness :
    summarize_csv_one "sample_analysis".data (Except.ok dfFive) =
      some recSampleA ∧
    recSampleA.filename = "sample_analysis".data := by
  have h : summarize_csv_one "sample_analysis".data (Except.ok dfFive) =
      some recSampleA := by decide
  exact ⟨h, C7_filename_amended.1 _ _ _ h⟩

/-! ### Claim C8 — exactly one aggregate row per readable table -/

lemma length_filterMap_eq {α β : Type} (f : α → Option β) (l : List α) :
    (l.filterMap f).length = (l.filter (fun x => (f x).isSome)).length := by
  induction l with
  | nil => rfl
  | cons a as ih =>
    cases h : f a with
    | none => simp [List.filterMap_cons, h, List.filter_cons, ih]
    | some b => simp [List.filterMap_cons, h, List.filter_cons, ih]

lemma summarize_csv_one_isSome (stem : Str) (read : Except Unit DF) :
    (summarize_csv_one stem read).isSome = read.toOption.isSome := by
  cases read with
  | error e => rfl
  | ok df => rw [summarize_csv_one_ok]; rfl

/-- Claim C8: every readable table yields exactly one aggregate record —
`analysis_main` emits as many rows as readable inputs — whose values are
the first distinct projected row (which is the table's first row), or
the all-NA row when the table has no rows at all. -/
theorem C8_one_row_per_table (stem : Str) (df : DF) :
    (∃ rec, summarize_csv_one stem (Except.ok df) = some rec ∧
      (dedupFirst ((fillSelect df).rows.map (projRow (fillSelect df).cols)) =
          [] →
        rec.vals = SELECT_COLS.map (fun _ => Cell.na)) ∧
      (∀ v vs,
        dedupFirst ((fillSelect df).rows.map (projRow (fillSelect df).cols)) =
          v :: vs →
        rec.vals = v ∧
          ((fillSelect df).rows.map (projRow (fillSelect df).cols)).head? =
            some v)) ∧
    (∀ inputs out, analysis_main inputs = some out →
      out.rows.length =
        (inputs.filter (fun p => p.2.toOption.isSome)).length) := by
  constructor
  · rw [summarize_csv_one_ok]
    refine ⟨_, rfl, ?_, ?_⟩
    · intro hd
      simp only [hd]
    · intro v vs hd
      cases hrows : (fillSelect df).rows with
      | nil =>
        rw [hrows] at hd
        simp [dedupFirst, dedupSeen] at hd
      | cons r0 rest =>
        rw [hrows] at hd
        rw [List.map_cons, dedupFirst_cons] at hd
        cases hd
        refine ⟨?_, rfl⟩
        simp only [hrows, List.map_cons, dedupFirst_cons]
  · intro inputs out h
    unfold analysis_main at h
    by_cases hrec :
        (inputs.filterMap (fun p => summarize_csv_one p.1 p.2)).isEmpty
    · simp [hrec] at h
    · simp only [hrec, Bool.false_eq_true, if_false, Option.some.injEq] at h
      cases h
      show (sortByFilename _).length = _
      rw [sortByFilename_length, length_filterMap_eq]
      have hfun : (fun p : Str × Except Unit DF =>
          (summarize_csv_one p.1 p.2).isSome) =
          (fun p : Str × Except Unit DF => p.2.toOption.isSome) :=
        funext fun p => summarize_csv_one_isSome p.1 p.2
      rw [hfun]

/-- Witness for C8 at a concrete one-row table: the emitted values are
exactly the table's first (and only) projected row. -/
theorem C8_one_row_per_table_witness :
    ∃ rec, summarize_csv_one "s_analysis".data (Except.ok dfFive) = some rec ∧
      rec.vals = fiveCells := by
  obtain ⟨rec, h1, _, h3⟩ := (C8_one_row_per_table "s_analysis".data dfFive).1
  exact ⟨rec, h1, (h3 fiveCells [] (by decide)).1⟩
